import Mathlib

/-!
Verification of the kasperl pipeline-execution core: the variable-generator
composition engine, the pipeline template expander (`_expand_vars` in
`kasperl/api/_exec.py`), the dry-run/execute loop (`execute_pipeline`), the
comparison evaluator, the trigger/sub-process nested-execution filters
(`kasperl/filter/_trigger.py`, `kasperl/filter/_sub_process.py`) and the
shared `Session` storage (`kasperl/api/_session.py`).

Strings are modelled as `List Char`; Python dicts as insertion-ordered
association lists.
-/

deriving instance DecidableEq for Except

namespace Kasperl

/-- Characters of a Python string. -/
abbrev Str := List Char

/-- A variable binding: an insertion-ordered mapping of variable name to
string value, as produced by one generator iteration (a Python dict). -/
abbrev Binding := List (Str × Str)

/-- Fuelled worker for `replaceAll`.  Models Python `str.replace` (replace
every non-overlapping occurrence, scanning left to right; the replacement
text itself is never rescanned).  The fuel only has to dominate the length
of the subject string. -/
def replaceAllFuel (pat rep : Str) : Nat → Str → Str
  | 0, s => s
  | _ + 1, [] => []
  | fuel + 1, c :: rest =>
    if pat.isPrefixOf (c :: rest) && !pat.isEmpty then
      rep ++ replaceAllFuel pat rep fuel ((c :: rest).drop pat.length)
    else
      c :: replaceAllFuel pat rep fuel rest

/-- Python `s.replace(pat, rep)` for a non-empty pattern (the patterns used
by `_expand_vars` have the shape `{name}` and are never empty). -/
def replaceAll (pat rep s : Str) : Str :=
  replaceAllFuel pat rep s.length s

/-- Python `pat in s`: substring occurrence test. -/
def containsSub (pat : Str) : Str → Bool
  | [] => pat.isEmpty
  | c :: rest => pat.isPrefixOf (c :: rest) || containsSub pat rest

/-- The placeholder token `"\x7b%s\x7d" % var` built by `_expand_vars`. -/
def varPat (v : Str) : Str :=
  '\x7b' :: v ++ ['\x7d']

/-- `True` when the string contains no brace character (variable names and
values produced by generators are plain strings). -/
def braceFree (s : Str) : Bool :=
  !(s.contains '\x7b') && !(s.contains '\x7d')

/-- The inner loop of `_expand_vars` (`_exec.py` lines 89-92): for one token,
apply each variable of the binding, in insertion order, as a literal
substring replacement of its `\x7bname\x7d` placeholder. -/
def expandToken (vars : Binding) (arg : Str) : Str :=
  vars.foldl (fun a kv => replaceAll (varPat kv.1) kv.2 a) arg

/-- `_expand_vars` (`kasperl/api/_exec.py` lines 77-94): expand the variables
of one binding in every token of the pipeline. -/
def expand_vars (pipeline : List Str) (vars : Binding) : List Str :=
  pipeline.map (fun arg => expandToken vars arg)

/-- Python dict lookup on an insertion-ordered association list (keys are
unique in a dict, so first match suffices). -/
def lookupVar (b : Binding) (k : Str) : Option Str :=
  match b with
  | [] => none
  | (k0, v0) :: rest => if k0 = k then some v0 else lookupVar rest k

/-- Python `d[k] = v` on an insertion-ordered association list: overwrite the
value of an existing key in place, else append the new pair at the end. -/
def updateEntry (k v : Str) : Binding → Binding
  | [] => [(k, v)]
  | (k0, v0) :: rest =>
    if k0 = k then (k0, v) :: rest else (k0, v0) :: updateEntry k v rest

/-- Modelled from the spec: merging an outer binding with an inner binding
for one combination of the generator composition (the merge performed by the
missing `compile_generator_vars_list`, §4.4): start from a copy of the outer
dict and write every inner pair into it, so keys present in both take the
inner (later) generator's value. -/
def mergeBindings (outer inner : Binding) : Binding :=
  inner.foldl (fun acc kv => updateEntry kv.1 kv.2 acc) outer

/-- Modelled from the spec: composition of one outer and one inner generator
output (§4.4): the Cartesian product in outer-major, inner-minor order, each
pair merged with `mergeBindings`. -/
def composePair (outer inner : List Binding) : List Binding :=
  (outer.map (fun o => inner.map (fun i => mergeBindings o i))).flatten

/-- Modelled from the spec: `compile_generator_vars_list`, imported by
`kasperl/api/_exec.py` from `kasperl.api._generator` but not present under
`src/`.  Per §4.4 the generator outputs are composed left to right, the
first spec being the outer loop and later specs nesting inside it.  The
argument is the list of binding sequences the generators produced. -/
def compile_generator_vars_list : List (List Binding) → List Binding
  | [] => []
  | g :: rest => rest.foldl composePair g

/-- Character class of `shlex.quote`: characters that never force quoting
(ASCII letters, digits, underscore and `@ % + = : , . - /`, i.e. the
complement of `_find_unsafe`). -/
def shlexSafeChar (c : Char) : Bool :=
  c.isAlphanum || c == '_' || c == '@' || c == '%' || c == '+' || c == '=' ||
    c == ':' || c == ',' || c == '.' || c == '/' || c == '-'

/-- Python `shlex.quote`: empty strings and strings with unsafe characters
are wrapped in single quotes, embedded single quotes being escaped. -/
def shlexQuote (s : Str) : Str :=
  if s.isEmpty then ['\'', '\'']
  else if s.all shlexSafeChar then s
  else '\'' :: (s.flatMap fun c =>
    if c == '\'' then ['\'', '"', '\'', '"', '\''] else [c]) ++ ['\'']

/-- Python `shlex.join`: quote each token and join with single spaces. -/
def shlexJoin (args : List Str) : Str :=
  match args with
  | [] => []
  | a :: rest => rest.foldl (fun acc t => acc ++ [' '] ++ shlexQuote t) (shlexQuote a)

/-- `load_pipeline` lines 66-69: with `remove_convert_prog` set (as
`execute_pipeline` always does), drop the first token when it starts with
the conversion program's name. -/
def stripProg (convertProg : Str) (result : List Str) : List Str :=
  match result with
  | [] => []
  | r0 :: rest => if convertProg.isPrefixOf r0 then rest else r0 :: rest

/-- Observable outcome of `execute_pipeline`: the lines printed to stdout
and the expanded pipelines handed to `convert_func`. -/
structure ExecOutcome where
  printed : List Str
  executed : List (List Str)
deriving DecidableEq

/-- The per-binding loop of `execute_pipeline` (`_exec.py` lines 130-141).
Faithful to the source: in dry-run mode the `print` statement sits inside
the `if prefix is not None` branch, the prefix local is reassigned (with a
trailing blank appended) and persists across iterations, and the prefix is
prepended to the first expanded token before `shlex.join`. -/
def execLoop (dryRun : Bool) (pipeline : List Str) :
    List Binding → Option Str → Except String ExecOutcome
  | [], _ => .ok ⟨[], []⟩
  | vars :: rest, pfx =>
    let pe := expand_vars pipeline vars
    if dryRun then
      match pfx with
      | none => execLoop dryRun pipeline rest none
      | some p =>
        let p2 := if p.getLast? == some ' ' then p else p ++ [' ']
        match pe with
        | [] => .error "IndexError: list assignment index out of range"
        | t0 :: ts =>
          match execLoop dryRun pipeline rest (some p2) with
          | .error e => .error e
          | .ok r => .ok ⟨shlexJoin ((p2 ++ t0) :: ts) :: r.printed, r.executed⟩
    else
      match execLoop dryRun pipeline rest pfx with
      | .error e => .error e
      | .ok r => .ok ⟨r.printed, pe :: r.executed⟩

/-- `execute_pipeline` (`kasperl/api/_exec.py` lines 97-141) for a pipeline
template already given as tokens (the `cmdline` format with a token list):
strip the conversion program, compose the generator outputs, then run the
per-binding loop.  `gens` is the list of binding sequences produced by the
configured generators. -/
def execute_pipeline (convertProg : Str) (pipelineTokens : List Str)
    (gens : List (List Binding)) (dryRun : Bool) (pfx : Option Str) :
    Except String ExecOutcome :=
  execLoop dryRun (stripProg convertProg pipelineTokens)
    (compile_generator_vars_list gens) pfx

/-- An exact decimal number `num / 10 ^ exp`, the result of parsing a
decimal literal the way Python `float()` does on plain decimal strings. -/
structure DecNum where
  num : Int
  exp : Nat
deriving DecidableEq

/-- Digit run to natural number. -/
def digitsToNat (ds : Str) : Nat :=
  ds.foldl (fun acc c => acc * 10 + (c.toNat - '0'.toNat)) 0

/-- Unsigned decimal literal: digits, optionally followed by a point and
further digits (at least one digit overall). -/
def parseUnsigned? (t : Str) : Option DecNum :=
  let intPart := t.takeWhile Char.isDigit
  let rest := t.dropWhile Char.isDigit
  match rest with
  | [] => if intPart.isEmpty then none else some ⟨Int.ofNat (digitsToNat intPart), 0⟩
  | c :: frac =>
    if c == '.' && frac.all Char.isDigit && !(intPart.isEmpty && frac.isEmpty) then
      some ⟨Int.ofNat (digitsToNat intPart * 10 ^ frac.length + digitsToNat frac), frac.length⟩
    else none

/-- Modelled from the spec: the "parses as a floating-point number" test of
the ComparisonEvaluator (§4.1); the implementation `kasperl/api/_comparison.py`
is not under `src/`.  Plain signed decimal literals are modelled exactly as
rationals; exponent, infinity and NaN forms are outside this model. -/
def parseFloat? : Str → Option DecNum
  | [] => none
  | '-' :: t => (parseUnsigned? t).map (fun d => ⟨-d.num, d.exp⟩)
  | '+' :: t => parseUnsigned? t
  | t => parseUnsigned? t

/-- Numeric comparison of two exact decimals (cross-multiplied, denominators
are positive powers of ten). -/
def numCompare (op : String) (a b : DecNum) : Except String Bool :=
  let x := a.num * (10 : Int) ^ b.exp
  let y := b.num * (10 : Int) ^ a.exp
  if op = "<" then .ok (decide (x < y))
  else if op = "<=" then .ok (decide (x ≤ y))
  else if op = "==" then .ok (decide (x = y))
  else if op = "!=" then .ok (decide (x ≠ y))
  else if op = ">=" then .ok (decide (y ≤ x))
  else if op = ">" then .ok (decide (y < x))
  else .error ("Unhandled comparison: " ++ op)

/-- Python string `<`: lexicographic comparison by code point. -/
def strLt : Str → Str → Bool
  | [], [] => false
  | [], _ :: _ => true
  | _ :: _, [] => false
  | a :: as, b :: bs =>
    if a.toNat < b.toNat then true
    else if a = b then strLt as bs
    else false

/-- String comparison of the ComparisonEvaluator for the relational
operators. -/
def strCompareOp (op : String) (v1 v2 : Str) : Except String Bool :=
  if op = "<" then .ok (strLt v1 v2)
  else if op = "<=" then .ok (strLt v1 v2 || v1 == v2)
  else if op = "==" then .ok (v1 == v2)
  else if op = "!=" then .ok (!(v1 == v2))
  else if op = ">=" then .ok (strLt v2 v1 || v1 == v2)
  else if op = ">" then .ok (strLt v2 v1)
  else .error ("Unhandled comparison: " ++ op)

/-- The six relational comparison operators. -/
def relOps : List String := ["<", "<=", "==", "!=", ">=", ">"]

/-- Modelled from the spec: `compare_values` of `kasperl/api/_comparison.py`
(imported throughout `kasperl.api` but not present under `src/`).  Per §4.1:
if both operands parse as floating-point numbers they are compared
numerically, otherwise as strings; `contains` is substring search of the
literal within the stored value; `matches` (regular-expression search) is
beyond the scope of this model and mapped to an error. -/
def compare_values (v1 : Str) (comparison : String) (v2 : Str) : Except String Bool :=
  if comparison = "contains" then .ok (containsSub v2 v1)
  else if comparison = "matches" then .error "matches is not modelled"
  else
    match parseFloat? v1, parseFloat? v2 with
    | some a, some b => numCompare comparison a b
    | _, _ => strCompareOp comparison v1 v2

/-- A data item travelling through a pipeline: a payload plus the key/value
metadata it exposes (`none` models an item that is not a `MetaDataHandler`
or whose `has_metadata()` is false). -/
structure Item where
  payload : Str
  meta : Option (List (Str × Str))
deriving DecidableEq

/-- A Python value handed to `_do_process`: either a single item or a list
of items. -/
inductive PyData where
  | one (it : Item)
  | many (its : List Item)
deriving DecidableEq

/-- `make_list` (`kasperl/api/_data.py`): wrap a single item in a list. -/
def makeList : PyData → List Item
  | .one it => [it]
  | .many l => l

/-- `flatten_list` (`kasperl/api/_data.py`): a one-element list collapses to
its sole element. -/
def flattenList : List Item → PyData
  | [x] => .one x
  | l => .many l

/-- Sub-flow plugins by capability, as the `isinstance` chain of
`Trigger.initialize` distinguishes them (`Reader`, `BatchFilter`, `Writer`;
anything else falls through the chain). -/
inductive Plugin where
  | reader (id : Nat)
  | filt (id : Nat)
  | writer (id : Nat)
  | other (id : Nat)
deriving DecidableEq

/-- Writer capability test. -/
def Plugin.isWriter : Plugin → Bool
  | .writer _ => true
  | _ => false

/-- Number of reader-capable plugins occurring before the first
writer-capable plugin — the only readers the classification scan of
`Trigger.initialize` ever examines, since the first writer breaks it. -/
def readersBeforeWriter : List Plugin → Nat
  | [] => 0
  | Plugin.writer _ :: _ => 0
  | Plugin.reader _ :: rest => readersBeforeWriter rest + 1
  | _ :: rest => readersBeforeWriter rest

/-- The filter slot of an assembled sub-flow: a single filter, or several
wrapped into one `MultiFilter` composite. -/
inductive FilterUnit where
  | single (p : Plugin)
  | multi (ps : List Plugin)
deriving DecidableEq

/-- The classification loop of `Trigger.initialize` (`_trigger.py` lines
177-188): scan the sub-flow plugins in order; a second reader raises, filters
accumulate, and the first writer is kept and terminates the scan (`break`),
so nothing after it is examined. -/
def classify : List Plugin → Option Plugin → List Plugin →
    Except String (Option Plugin × List Plugin × Option Plugin)
  | [], r, fs => .ok (r, fs, none)
  | p :: rest, r, fs =>
    match p with
    | .reader _ =>
      match r with
      | none => classify rest (some p) fs
      | some _ => .error "More than one reader defined in sub-flow!"
    | .filt _ => classify rest r (fs ++ [p])
    | .writer _ => .ok (r, fs, some p)
    | .other _ => classify rest r fs

/-- The assembled state of a trigger after `initialize`. -/
structure TriggerState where
  reader : Option Plugin
  filt : Option FilterUnit
  writer : Option Plugin
deriving DecidableEq

/-- `Trigger.initialize` (`kasperl/filter/_trigger.py` lines 163-212):
classify the sub-flow (when non-empty), wrap multiple filters into a
composite, require a reader, and require a comparison value whenever a
comparison field was supplied.  Plugin lifecycle calls
(`init_initializable`) are external side effects and not modelled. -/
def triggerInit (sub_flow : Option (List Plugin)) (field value : Option Str) :
    Except String TriggerState :=
  let sf := sub_flow.getD []
  let scanRes := if sf.length > 0 then classify sf none [] else .ok (none, [], none)
  match scanRes with
  | .error e => .error e
  | .ok (r, fs, w) =>
    let filt : Option FilterUnit :=
      match fs with
      | [] => none
      | [p] => some (.single p)
      | ps => some (.multi ps)
    match r with
    | none => .error "No reader defined in sub-flow!"
    | some _ =>
      if field.isSome && value.isNone then
        .error "No value provided to compare with!"
      else
        .ok ⟨r, filt, w⟩

/-- The gate evaluation of `Trigger._do_process` (`_trigger.py` lines
224-238) for the single current item: metadata is only consulted when a
field is configured; an item exposing no metadata leaves `meta` at `None`
and the gate is skipped (treated as passing); a missing field key is a
`KeyError`. -/
def triggerGate (field : Option Str) (comparison : String) (value : Option Str)
    (item : Item) : Except String Bool :=
  match field with
  | none => .ok true
  | some f =>
    match item.meta with
    | none => .ok true
    | some m =>
      match lookupVar m f with
      | none => .error "KeyError"
      | some v1 =>
        match value with
        | none => .error "No value provided to compare with!"
        | some v2 => compare_values v1 comparison v2

/-- `Trigger._do_process` (`kasperl/filter/_trigger.py` lines 214-243).  The
returned `Bool` records whether the sub-flow was executed (the inner
`execute(...)` run is an external side effect whose output is discarded).
When the gate evaluates false the raw `make_list` result is returned; when
the sub-flow runs, `flatten_list` of it is returned. -/
def triggerDoProcess (field : Option Str) (comparison : String)
    (value : Option Str) (data : PyData) : Except String (PyData × Bool) :=
  match makeList data with
  | [item] =>
    match triggerGate field comparison value item with
    | .error e => .error e
    | .ok comp =>
      if comp then .ok (flattenList [item], true)
      else .ok (.many [item], false)
  | l => .ok (flattenList l, true)

/-- The per-item body of `SubProcess._do_process` (`_sub_process.py` lines
181-201): metadata is only consulted when a field is configured; `process`
stays `True` when the item exposes no metadata; the sub-flow filter is
applied whenever `process` is true and a filter exists. -/
def subProcessItem (field : Option Str) (comparison : String)
    (value : Option Str) (filt : Option (Item → Item)) (it : Item) :
    Except String Item :=
  let decision : Except String Bool :=
    match field with
    | none => .ok true
    | some f =>
      match it.meta with
      | none => .ok true
      | some m =>
        match lookupVar m f with
        | none => .error "KeyError"
        | some v1 =>
          match value with
          | none => .error "No value provided to compare with!"
          | some v2 => compare_values v1 comparison v2
  match decision with
  | .error e => .error e
  | .ok process =>
    match filt with
    | some fn => if process then .ok (fn it) else .ok it
    | none => .ok it

/-- The item loop of `SubProcess._do_process`: accumulate the processed
items in order, aborting at the first raised exception. -/
def subProcessItems (field : Option Str) (comparison : String)
    (value : Option Str) (filt : Option (Item → Item)) :
    List Item → Except String (List Item)
  | [] => .ok []
  | it :: rest =>
    match subProcessItem field comparison value filt it with
    | .error e => .error e
    | .ok it2 =>
      match subProcessItems field comparison value filt rest with
      | .error e => .error e
      | .ok l => .ok (it2 :: l)

/-- `SubProcess._do_process` (`kasperl/filter/_sub_process.py` lines
173-203): process every incoming item, then `flatten_list` the results.
The assembled composite filter is modelled as a function on items. -/
def subProcessDoProcess (field : Option Str) (comparison : String)
    (value : Option Str) (filt : Option (Item → Item)) (data : PyData) :
    Except String PyData :=
  match subProcessItems field comparison value filt (makeList data) with
  | .error e => .error e
  | .ok items => .ok (flattenList items)

/-- Heap-level model of the `Session` class (`kasperl/api/_session.py`):
`storage` is a class-level dict allocated once when the class is created
(address 0 of `dicts`); each constructed instance has its own attribute
dict (`insts`), and attribute lookup falls back to the class attribute when
the instance dict has no `storage` entry. -/
structure PyHeap where
  dicts : List (List (Str × Str))
  insts : List (List (String × Nat))
deriving DecidableEq

/-- The heap right after the `Session` class body ran: the single class-level
`storage` dict, empty, at address 0; no instances yet. -/
def initHeap : PyHeap := ⟨[[]], []⟩

/-- Attribute lookup in an instance's own dict. -/
def attrLookup (d : List (String × Nat)) (name : String) : Option Nat :=
  match d with
  | [] => none
  | (n0, a0) :: rest => if n0 = name then some a0 else attrLookup rest name

/-- Python attribute resolution for `session.storage`: the instance dict
first, the class attribute (address 0) otherwise. -/
def storageAddr (s : PyHeap) (i : Nat) : Nat :=
  (attrLookup (s.insts.getD i []) "storage").getD 0

/-- Operations the kasperl pipeline performs on sessions: constructing a
`Session()` (whose class defines no `__init__` assigning `storage`), and
`session.storage[k] = v` through some instance. -/
inductive SessionOp where
  | newSession
  | putStorage (i : Nat) (k v : Str)

/-- One session operation on the heap.  Constructing a session appends an
empty instance dict; a storage write mutates the dict object the instance's
`storage` attribute resolves to. -/
def applyOp (s : PyHeap) : SessionOp → PyHeap
  | .newSession => ⟨s.dicts, s.insts ++ [[]]⟩
  | .putStorage i k v =>
    let a := storageAddr s i
    ⟨s.dicts.set a (updateEntry k v (s.dicts.getD a [])), s.insts⟩

/-- Run a sequence of session operations from the class-creation heap. -/
def runOps (ops : List SessionOp) : PyHeap :=
  ops.foldl applyOp initHeap

/-- `session.storage[k]` read through instance `i`. -/
def storeGet (s : PyHeap) (i : Nat) (k : Str) : Option Str :=
  lookupVar (s.dicts.getD (storageAddr s i) []) k

/-- The invariant maintained by every session operation: there is exactly one
dict object on the heap (the class-level `storage` dict, at address 0) and no
instance dict ever holds a `storage` attribute. -/
def HeapInv (s : PyHeap) : Prop :=
  (∃ d, s.dicts = [d]) ∧ ∀ inst ∈ s.insts, inst = []

/-! ### Lemmas about literal substring replacement -/

theorem replaceAllFuel_eq_of_not_contains {pat rep : Str} :
    ∀ (fuel : Nat) (s : Str), containsSub pat s = false →
      replaceAllFuel pat rep fuel s = s
  | 0, _, _ => rfl
  | _ + 1, [], _ => rfl
  | fuel + 1, c :: rest, h => by
    have h' : pat.isPrefixOf (c :: rest) = false ∧ containsSub pat rest = false := by
      simpa [containsSub] using h
    simp [replaceAllFuel, h'.1,
      replaceAllFuel_eq_of_not_contains fuel rest h'.2]

theorem replaceAll_eq_of_not_contains {pat rep s : Str}
    (h : containsSub pat s = false) : replaceAll pat rep s = s :=
  replaceAllFuel_eq_of_not_contains s.length s h

theorem replaceAllFuel_self (pat : Str) :
    ∀ (fuel : Nat) (s : Str), replaceAllFuel pat pat fuel s = s
  | 0, _ => rfl
  | _ + 1, [] => rfl
  | fuel + 1, c :: rest => by
    by_cases h : (pat.isPrefixOf (c :: rest) && !pat.isEmpty) = true
    · have hpre : pat.isPrefixOf (c :: rest) = true :=
        (Bool.and_eq_true_iff.mp h).1
      obtain ⟨t, ht⟩ := List.isPrefixOf_iff_prefix.mp hpre
      have hdrop : (c :: rest).drop pat.length = t := by
        rw [← ht]; exact List.drop_left pat t
      simp [replaceAllFuel, h, hdrop, replaceAllFuel_self pat fuel t, ht]
    · simp [replaceAllFuel, h, replaceAllFuel_self pat fuel rest]

theorem replaceAll_self (pat s : Str) : replaceAll pat pat s = s :=
  replaceAllFuel_self pat s.length s

/-! ### Lemmas about token expansion -/

theorem expandToken_append (p q : Binding) (t : Str) :
    expandToken (p ++ q) t = expandToken q (expandToken p t) := by
  simp [expandToken, List.foldl_append]

theorem expandToken_eq_of_not_contains :
    ∀ (vars : Binding) (t : Str),
      (∀ kv ∈ vars, containsSub (varPat kv.1) t = false) →
      expandToken vars t = t
  | [], _, _ => rfl
  | kv :: vars', t, h => by
    have h0 : replaceAll (varPat kv.1) kv.2 t = t :=
      replaceAll_eq_of_not_contains (h kv (List.mem_cons_self kv vars'))
    have h' : ∀ kv' ∈ vars', containsSub (varPat kv'.1) t = false :=
      fun kv' hm => h kv' (List.mem_cons_of_mem kv hm)
    calc expandToken (kv :: vars') t
        = expandToken vars' (replaceAll (varPat kv.1) kv.2 t) := rfl
      _ = expandToken vars' t := by rw [h0]
      _ = t := expandToken_eq_of_not_contains vars' t h'

/-! ### Brace bookkeeping: an unbound placeholder is not hit by any bound
placeholder's pattern -/

theorem braceFree_cons {c : Char} {s : Str} (h : braceFree (c :: s) = true) :
    c ≠ '\x7b' ∧ c ≠ '\x7d' ∧ braceFree s = true := by
  simp only [braceFree, List.contains_cons, Bool.not_or, Bool.and_eq_true,
    Bool.not_eq_true', beq_eq_false_iff_ne, ne_eq] at h ⊢
  exact ⟨fun e => h.1.1 e.symm, fun e => h.2.1 e.symm, ⟨h.1.2, h.2.2⟩⟩

theorem not_mem_of_contains_false {l : Str} {a : Char}
    (h : l.contains a = false) : a ∉ l := by
  intro hm
  have ht : l.contains a = true :=
    List.contains_iff_exists_mem_beq.mpr ⟨a, hm, by simp⟩
  rw [ht] at h
  exact Bool.noConfusion h

theorem braceFree_not_mem {s : Str} (h : braceFree s = true) :
    '\x7b' ∉ s ∧ '\x7d' ∉ s := by
  simp only [braceFree, Bool.and_eq_true_iff, Bool.not_eq_true'] at h
  exact ⟨not_mem_of_contains_false h.1, not_mem_of_contains_false h.2⟩

theorem rbrace_prefixOf_false :
    ∀ (k u : Str), braceFree k = true → braceFree u = true → k ≠ u →
      List.isPrefixOf (k ++ ['\x7d']) (u ++ ['\x7d']) = false
  | [], [], _, _, hne => absurd rfl hne
  | [], d :: _, _, hu, _ => by
    have hd : ('\x7d' == d) = false := by
      have := (braceFree_cons hu).2.1
      simp [beq_eq_false_iff_ne]
      exact fun e => this e.symm
    simp [List.isPrefixOf, hd]
  | c :: _, [], hk, _, _ => by
    have hc : (c == '\x7d') = false := by
      simpa [beq_eq_false_iff_ne] using (braceFree_cons hk).2.1
    simp [List.isPrefixOf, hc]
  | c :: k', d :: u', hk, hu, hne => by
    by_cases hcd : c = d
    · subst hcd
      have hne' : k' ≠ u' := fun e => hne (by rw [e])
      simp [List.isPrefixOf,
        rbrace_prefixOf_false k' u' (braceFree_cons hk).2.2 (braceFree_cons hu).2.2 hne']
    · simp [List.isPrefixOf, hcd]

theorem containsSub_head_lbrace :
    ∀ (p s : Str), '\x7b' ∉ s → containsSub ('\x7b' :: p) s = false
  | _, [], _ => rfl
  | p, c :: rest, h => by
    have hc : ('\x7b' == c) = false := by
      simp only [beq_eq_false_iff_ne, ne_eq]
      exact fun e => h (e ▸ List.mem_cons_self c rest)
    have h' : '\x7b' ∉ rest := fun hm => h (List.mem_cons_of_mem c hm)
    simp [containsSub, List.isPrefixOf, hc, containsSub_head_lbrace p rest h']

theorem containsSub_varPat_false {k u : Str} (hk : braceFree k = true)
    (hu : braceFree u = true) (hne : k ≠ u) :
    containsSub (varPat k) (varPat u) = false := by
  have h1 : List.isPrefixOf (k ++ ['\x7d']) (u ++ ['\x7d']) = false :=
    rbrace_prefixOf_false k u hk hu hne
  have hmem : '\x7b' ∉ u ++ ['\x7d'] := by
    intro hm
    rcases List.mem_append.mp hm with h | h
    · exact (braceFree_not_mem hu).1 h
    · simp at h
  have h2 : containsSub ('\x7b' :: (k ++ ['\x7d'])) (u ++ ['\x7d']) = false :=
    containsSub_head_lbrace _ _ hmem
  simp [varPat, containsSub, List.isPrefixOf, h1, h2]

/-! ### Lemmas about dict update, merge and composition -/

theorem lookup_update_self (k v : Str) :
    ∀ (l : Binding), lookupVar (updateEntry k v l) k = some v
  | [] => by simp [updateEntry, lookupVar]
  | (k0, v0) :: rest => by
    by_cases h : k0 = k
    · simp [updateEntry, lookupVar, h]
    · simp [updateEntry, lookupVar, h, lookup_update_self k v rest]

theorem lookup_update_ne {k k' : Str} (hne : k' ≠ k) (v : Str) :
    ∀ (l : Binding), lookupVar (updateEntry k v l) k' = lookupVar l k'
  | [] => by
    have h2 : ¬k = k' := fun e => hne e.symm
    simp [updateEntry, lookupVar, h2]
  | (k0, v0) :: rest => by
    by_cases h : k0 = k
    · subst h
      have h2 : ¬k0 = k' := fun e => hne e.symm
      simp [updateEntry, lookupVar, h2]
    · simp [updateEntry, lookupVar, h, lookup_update_ne hne v rest]

theorem merge_lookup_not_mem {k : Str} :
    ∀ (inner : Binding) (outer : Binding), k ∉ inner.map Prod.fst →
      lookupVar (mergeBindings outer inner) k = lookupVar outer k
  | [], _, _ => rfl
  | (k0, v0) :: rest, outer, h => by
    have hk0 : k ≠ k0 := by
      intro e; exact h (by simp [e])
    have hrest : k ∉ rest.map Prod.fst := by
      intro hm; exact h (by simp [hm])
    calc lookupVar (mergeBindings outer ((k0, v0) :: rest)) k
        = lookupVar (mergeBindings (updateEntry k0 v0 outer) rest) k := rfl
      _ = lookupVar (updateEntry k0 v0 outer) k :=
          merge_lookup_not_mem rest (updateEntry k0 v0 outer) hrest
      _ = lookupVar outer k := lookup_update_ne hk0 v0 outer

theorem merge_lookup_mem {k : Str} :
    ∀ (inner : Binding) (outer : Binding), (inner.map Prod.fst).Nodup →
      k ∈ inner.map Prod.fst →
      lookupVar (mergeBindings outer inner) k = lookupVar inner k
  | [], _, _, hm => by simp at hm
  | (k0, v0) :: rest, outer, hnd, hm => by
    rw [List.map_cons] at hnd hm
    have hnd' : (rest.map Prod.fst).Nodup := (List.nodup_cons.mp hnd).2
    by_cases h : k = k0
    · subst h
      have hrest : k ∉ rest.map Prod.fst := (List.nodup_cons.mp hnd).1
      calc lookupVar (mergeBindings outer ((k, v0) :: rest)) k
          = lookupVar (mergeBindings (updateEntry k v0 outer) rest) k := rfl
        _ = lookupVar (updateEntry k v0 outer) k :=
            merge_lookup_not_mem rest _ hrest
        _ = some v0 := lookup_update_self k v0 _
        _ = lookupVar ((k, v0) :: rest) k := by simp [lookupVar]
    · have hm' : k ∈ rest.map Prod.fst := by
        rcases List.mem_cons.mp hm with h0 | h0
        · exact absurd h0 h
        · exact h0
      calc lookupVar (mergeBindings outer ((k0, v0) :: rest)) k
          = lookupVar (mergeBindings (updateEntry k0 v0 outer) rest) k := rfl
        _ = lookupVar rest k := merge_lookup_mem rest _ hnd' hm'
        _ = lookupVar ((k0, v0) :: rest) k := by
            have h2 : ¬k0 = k := fun e => h e.symm
            simp [lookupVar, h2]

theorem composePair_nil (inner : List Binding) : composePair [] inner = [] := rfl

theorem composePair_cons (o : Binding) (os inner : List Binding) :
    composePair (o :: os) inner =
      inner.map (fun i => mergeBindings o i) ++ composePair os inner := by
  simp [composePair]

theorem composePair_length :
    ∀ (outer inner : List Binding),
      (composePair outer inner).length = outer.length * inner.length
  | [], inner => by simp [composePair_nil]
  | o :: os, inner => by
    simp [composePair_cons, composePair_length os inner, Nat.succ_mul,
      Nat.add_comm]

theorem composePair_get? :
    ∀ (outer : List Binding) (inner : List Binding) (i j : Nat)
      (hi : i < outer.length) (hj : j < inner.length),
      (composePair outer inner).get? (i * inner.length + j) =
        some (mergeBindings (outer.get ⟨i, hi⟩) (inner.get ⟨j, hj⟩))
  | [], _, i, _, hi, _ => absurd hi (Nat.not_lt_zero i)
  | o :: os, inner, 0, j, _, hj => by
    rw [composePair_cons]
    have hlen : j < (inner.map (fun i => mergeBindings o i)).length := by
      simpa using hj
    rw [Nat.zero_mul, Nat.zero_add, List.get?_append hlen, List.get?_map,
      List.get?_eq_get hj]
    rfl
  | o :: os, inner, i + 1, j, hi, hj => by
    rw [composePair_cons]
    have harith : (i + 1) * inner.length + j =
        (inner.map (fun i => mergeBindings o i)).length + (i * inner.length + j) := by
      simp [Nat.succ_mul]
      omega
    rw [harith, List.get?_append_right (Nat.le_add_right _ _)]
    simp only [Nat.add_sub_cancel_left]
    have hi' : i < os.length := Nat.lt_of_succ_lt_succ hi
    rw [composePair_get? os inner i j hi' hj]
    rfl

/-! ### Lemmas about list wrapping -/

theorem makeList_flattenList : ∀ (l : List Item), makeList (flattenList l) = l
  | [] => rfl
  | [_] => rfl
  | _ :: _ :: _ => rfl

/-! ### Lemmas about the session heap -/

theorem heapInv_init : HeapInv initHeap :=
  ⟨⟨[], rfl⟩, by intro inst h; simp [initHeap] at h⟩

theorem storageAddr_eq_zero {s : PyHeap} (h : HeapInv s) (i : Nat) :
    storageAddr s i = 0 := by
  have hinst : s.insts[i]?.getD [] = [] := by
    rcases hg : s.insts[i]? with _ | inst
    · rfl
    · have hmem : inst ∈ s.insts := by
        have := List.getElem?_eq_some.mp hg
        obtain ⟨hlt, he⟩ := this
        exact he ▸ List.getElem_mem hlt
      simp [h.2 inst hmem]
  simp [storageAddr, List.getD_eq_getElem?_getD, hinst, attrLookup]

theorem heapInv_applyOp {s : PyHeap} (h : HeapInv s) (op : SessionOp) :
    HeapInv (applyOp s op) := by
  rcases op with _ | ⟨i, k, v⟩
  · exact ⟨h.1, by
      intro inst hm
      rcases List.mem_append.mp hm with hm | hm
      · exact h.2 inst hm
      · simpa using hm⟩
  · obtain ⟨d, hd⟩ := h.1
    refine ⟨⟨updateEntry k v d, ?_⟩, h.2⟩
    simp [applyOp, storageAddr_eq_zero h, hd]

theorem heapInv_foldl :
    ∀ (ops : List SessionOp) (s : PyHeap), HeapInv s →
      HeapInv (ops.foldl applyOp s)
  | [], _, h => h
  | op :: rest, s, h => heapInv_foldl rest (applyOp s op) (heapInv_applyOp h op)

theorem heapInv_runOps (ops : List SessionOp) : HeapInv (runOps ops) :=
  heapInv_foldl ops initHeap heapInv_init

theorem storeGet_eq_class {s : PyHeap} (h : HeapInv s) (i : Nat) (k : Str) :
    storeGet s i k = lookupVar (s.dicts.getD 0 []) k := by
  simp [storeGet, storageAddr_eq_zero h]

/-! ### Lemmas about dict lookup and the sub-flow scan -/

theorem mem_of_lookup_some {k v : Str} :
    ∀ (l : Binding), lookupVar l k = some v → k ∈ l.map Prod.fst
  | [], h => by simp [lookupVar] at h
  | (k0, v0) :: rest, h => by
    by_cases he : k0 = k
    · simp [he]
    · rw [List.map_cons, List.mem_cons]
      right
      refine mem_of_lookup_some (v := v) rest ?_
      simpa [lookupVar, he] using h

theorem classify_append_writer :
    ∀ (xs : List Plugin) (w : Nat) (rest : List Plugin) (r : Option Plugin)
      (fs : List Plugin), (∀ p ∈ xs, p.isWriter = false) →
      classify (xs ++ Plugin.writer w :: rest) r fs =
        classify (xs ++ [Plugin.writer w]) r fs
  | [], _, _, _, _, _ => rfl
  | p :: xs', w, rest, r, fs, h => by
    have h' : ∀ q ∈ xs', q.isWriter = false :=
      fun q hq => h q (List.mem_cons_of_mem p hq)
    cases p with
    | reader n =>
      cases r with
      | none => simpa [classify] using classify_append_writer xs' w rest _ _ h'
      | some _ => rfl
    | filt n => simpa [classify] using classify_append_writer xs' w rest _ _ h'
    | writer n =>
      have := h (Plugin.writer n) (List.mem_cons_self _ _)
      simp [Plugin.isWriter] at this
    | other n => simpa [classify] using classify_append_writer xs' w rest _ _ h'

theorem classify_two_readers_error :
    ∀ (l : List Plugin) (r : Option Plugin) (fs : List Plugin),
      2 ≤ readersBeforeWriter l + (if r.isSome then 1 else 0) →
      classify l r fs = .error "More than one reader defined in sub-flow!"
  | [], r, _, h => by
    rcases r with _ | p <;> simp [readersBeforeWriter] at h
  | .reader n :: rest, r, fs, h => by
    rcases r with _ | p
    · have h' : 2 ≤ readersBeforeWriter rest
          + (if (some (Plugin.reader n)).isSome then 1 else 0) := by
        simp [readersBeforeWriter] at h ⊢
        omega
      simpa [classify] using
        classify_two_readers_error rest (some (.reader n)) fs h'
    · rfl
  | .filt n :: rest, r, fs, h => by
    have h' : 2 ≤ readersBeforeWriter rest + (if r.isSome then 1 else 0) := by
      simpa [readersBeforeWriter] using h
    simpa [classify] using
      classify_two_readers_error rest r (fs ++ [.filt n]) h'
  | .writer n :: rest, r, _, h => by
    rcases r with _ | p <;> simp [readersBeforeWriter] at h
  | .other n :: rest, r, fs, h => by
    have h' : 2 ≤ readersBeforeWriter rest + (if r.isSome then 1 else 0) := by
      simpa [readersBeforeWriter] using h
    simpa [classify] using classify_two_readers_error rest r fs h'

/-! ### Claims -/

/-- C1: for an outer generator producing `m` bindings and an inner generator
producing `n` bindings, the composed binding sequence has exactly `m * n`
elements, enumerated outer-index-major (element `i * n + j` is the merge of
outer binding `i` with inner binding `j`, so the first `n` elements all
share the first outer binding), and the merged binding maps every key
present in both bindings to the inner generator's value. -/
theorem c1_generator_composition (outer inner : List Binding) :
    (compile_generator_vars_list [outer, inner]).length
        = outer.length * inner.length
    ∧ (∀ (i j : Nat) (hi : i < outer.length) (hj : j < inner.length),
        (compile_generator_vars_list [outer, inner]).get? (i * inner.length + j)
          = some (mergeBindings (outer.get ⟨i, hi⟩) (inner.get ⟨j, hj⟩)))
    ∧ (∀ (o i : Binding) (k vO vI : Str), (i.map Prod.fst).Nodup →
        lookupVar o k = some vO → lookupVar i k = some vI →
        lookupVar (mergeBindings o i) k = some vI) := by
  have hcomp : compile_generator_vars_list [outer, inner] = composePair outer inner := rfl
  refine ⟨?_, ?_, ?_⟩
  · rw [hcomp]; exact composePair_length outer inner
  · intro i j hi hj
    rw [hcomp]; exact composePair_get? outer inner i j hi hj
  · intro o i k vO vI hnd hO hI
    rw [merge_lookup_mem i o hnd (mem_of_lookup_some i hI), hI]

/-- C1 witness: two generators with two bindings each, sharing key `a`
between the first outer and first inner binding. -/
theorem c1_generator_composition_witness :
    (compile_generator_vars_list
        [[[("a".toList, "1".toList)], [("a".toList, "2".toList)]],
         [[("a".toList, "9".toList), ("b".toList, "8".toList)],
          [("b".toList, "7".toList)]]]).length = 2 * 2
    ∧ (compile_generator_vars_list
        [[[("a".toList, "1".toList)], [("a".toList, "2".toList)]],
         [[("a".toList, "9".toList), ("b".toList, "8".toList)],
          [("b".toList, "7".toList)]]]).get? (1 * 2 + 1)
        = some (mergeBindings [("a".toList, "2".toList)] [("b".toList, "7".toList)])
    ∧ lookupVar (mergeBindings [("a".toList, "1".toList)]
          [("a".toList, "9".toList), ("b".toList, "8".toList)]) "a".toList
        = some "9".toList := by
  refine ⟨(c1_generator_composition
      [[("a".toList, "1".toList)], [("a".toList, "2".toList)]]
      [[("a".toList, "9".toList), ("b".toList, "8".toList)],
       [("b".toList, "7".toList)]]).1, ?_, ?_⟩
  · exact (c1_generator_composition
      [[("a".toList, "1".toList)], [("a".toList, "2".toList)]]
      [[("a".toList, "9".toList), ("b".toList, "8".toList)],
       [("b".toList, "7".toList)]]).2.1 1 1 (by decide) (by decide)
  · exact (c1_generator_composition [] []).2.2
      [("a".toList, "1".toList)]
      [("a".toList, "9".toList), ("b".toList, "8".toList)]
      "a".toList "1".toList "9".toList (by decide) (by decide) (by decide)

/-- C3 counterexample: with the binding `a = "\x7bb\x7d"`, `b = "X"` (in
that insertion order), expanding the token `"\x7ba\x7d"` yields `"X"`: the
placeholder introduced by substituting `a`'s value IS expanded further in
the same pass, contradicting the claim that it never is. -/
theorem c3_no_recursion_counterexample :
    expand_vars ["{a}".toList]
        [("a".toList, "{b}".toList), ("b".toList, "X".toList)] = ["X".toList]
    ∧ "X".toList ≠ "{b}".toList :=
  ⟨by decide, by decide⟩

/-- C3 (amended): expansion applies the binding's replacements sequentially
in insertion order — expanding with the whole binding equals expanding with
any leading part and then the remaining part, so a placeholder introduced by
a substituted value is expanded exactly when its key occurs later in the
binding order; within one variable's replacement the substituted text is not
rescanned, so replacing a placeholder by text containing that same
placeholder never loops or re-expands. -/
theorem c3_sequential_expansion :
    (∀ (p q : Binding) (t : Str),
        expandToken (p ++ q) t = expandToken q (expandToken p t))
    ∧ (∀ (pat s : Str), replaceAll pat pat s = s) :=
  ⟨expandToken_append, replaceAll_self⟩

/-- C9: expansion leaves everything that is not a bound placeholder
untouched: a pipeline whose tokens contain no `\x7bname\x7d` substring for
any bound name is returned unchanged, and the token `\x7bu\x7d` for a name
`u` that is not a key of the binding (names being brace-free) survives
verbatim. -/
theorem c9_expansion_identity :
    (∀ (vars : Binding) (pipeline : List Str),
        (∀ t ∈ pipeline, ∀ kv ∈ vars, containsSub (varPat kv.1) t = false) →
        expand_vars pipeline vars = pipeline)
    ∧ (∀ (vars : Binding) (u : Str), braceFree u = true →
        (∀ kv ∈ vars, braceFree kv.1 = true ∧ kv.1 ≠ u) →
        expand_vars [varPat u] vars = [varPat u]) := by
  constructor
  · intro vars pipeline h
    unfold expand_vars
    induction pipeline with
    | nil => rfl
    | cons t ts ih =>
      rw [List.map_cons,
        expandToken_eq_of_not_contains vars t (h t (List.mem_cons_self t ts)),
        ih (fun t' ht' kv hkv => h t' (List.mem_cons_of_mem t ht') kv hkv)]
  · intro vars u hu h
    have hall : ∀ kv ∈ vars, containsSub (varPat kv.1) (varPat u) = false :=
      fun kv hm => containsSub_varPat_false (h kv hm).1 hu (h kv hm).2
    simp [expand_vars, expandToken_eq_of_not_contains vars _ hall]

/-- C9 witness: a brace-free token and an unbound placeholder survive
expansion with the binding `dir = "/a"`. -/
theorem c9_expansion_identity_witness :
    expand_vars ["x.png".toList] [("dir".toList, "/a".toList)] = ["x.png".toList]
    ∧ expand_vars [varPat "unbound".toList] [("dir".toList, "/a".toList)]
        = [varPat "unbound".toList] :=
  ⟨c9_expansion_identity.1 [("dir".toList, "/a".toList)] ["x.png".toList] (by decide),
   c9_expansion_identity.2 [("dir".toList, "/a".toList)] "unbound".toList
     (by decide) (by decide)⟩

/-- C10: all Session objects share the single class-level storage dict: a
read through any instance sees the same map as through any other instance, a
key stored through one instance is visible through every other, and
constructing a further Session does not reset the map. -/
theorem c10_shared_storage :
    (∀ (ops : List SessionOp) (i j : Nat) (k : Str),
        storeGet (runOps ops) i k = storeGet (runOps ops) j k)
    ∧ (∀ (ops : List SessionOp) (i j : Nat) (k v : Str),
        storeGet (runOps (ops ++ [SessionOp.putStorage i k v])) j k = some v)
    ∧ (∀ (ops : List SessionOp) (i : Nat) (k : Str),
        storeGet (runOps (ops ++ [SessionOp.newSession])) i k
          = storeGet (runOps ops) i k) := by
  refine ⟨?_, ?_, ?_⟩
  · intro ops i j k
    rw [storeGet_eq_class (heapInv_runOps ops) i,
      storeGet_eq_class (heapInv_runOps ops) j]
  · intro ops i j k v
    have hr : runOps (ops ++ [SessionOp.putStorage i k v])
        = applyOp (runOps ops) (SessionOp.putStorage i k v) := by
      simp [runOps, List.foldl_append]
    obtain ⟨d, hd⟩ := (heapInv_runOps ops).1
    rw [storeGet_eq_class (heapInv_runOps (ops ++ [SessionOp.putStorage i k v])) j,
      hr]
    simp [applyOp, storageAddr_eq_zero (heapInv_runOps ops), hd,
      lookup_update_self]
  · intro ops i k
    have hr : runOps (ops ++ [SessionOp.newSession])
        = applyOp (runOps ops) SessionOp.newSession := by
      simp [runOps, List.foldl_append]
    have hinv' : HeapInv (applyOp (runOps ops) SessionOp.newSession) :=
      heapInv_applyOp (heapInv_runOps ops) _
    rw [storeGet_eq_class (heapInv_runOps (ops ++ [SessionOp.newSession])) i, hr,
      storeGet_eq_class (heapInv_runOps ops) i]
    rfl

/-- C2: evaluation of the dry-run loop at the spec's scenario (template
`convert -i \x7bdir\x7d/\x7bname\x7d.png`, program name `convert` stripped,
one generator with bindings `dir=/a,name=x` and `dir=/a,name=y`).  With no
prefix configured (the default) nothing at all is printed, because the
`print` call in `execute_pipeline` sits inside the `if prefix is not None`
branch; with a prefix set, one shell-quoted line per binding is printed.
The external entry point `convert_func` is never invoked in dry-run mode
(`executed = []` in both cases). -/
theorem c2_dry_run_eval :
    execute_pipeline "convert".toList
        ["convert".toList, "-i".toList, "{dir}/{name}.png".toList]
        [[[("dir".toList, "/a".toList), ("name".toList, "x".toList)],
          [("dir".toList, "/a".toList), ("name".toList, "y".toList)]]]
        true none = .ok ⟨[], []⟩
    ∧ execute_pipeline "convert".toList
        ["convert".toList, "-i".toList, "{dir}/{name}.png".toList]
        [[[("dir".toList, "/a".toList), ("name".toList, "x".toList)],
          [("dir".toList, "/a".toList), ("name".toList, "y".toList)]]]
        true (some "PRE".toList)
        = .ok ⟨["'PRE -i' /a/x.png".toList, "'PRE -i' /a/y.png".toList], []⟩ :=
  ⟨by decide, by decide⟩

/-- C4 counterexample: in sub-process mode with a gate configured
(`field=status`, `value=done`) and a sub-flow filter that appends `!` to the
payload, an item exposing no metadata is NOT passed through unfiltered: the
filter is applied to it (and nothing is logged, the comparison log only
firing when metadata is present). -/
theorem c4_gate_skip_counterexample :
    subProcessDoProcess (some "status".toList) "==" (some "done".toList)
        (some (fun it => ⟨it.payload ++ "!".toList, it.meta⟩))
        (.one ⟨"item".toList, none⟩)
      = .ok (.one ⟨"item!".toList, none⟩)
    ∧ (⟨"item!".toList, none⟩ : Item) ≠ ⟨"item".toList, none⟩ :=
  ⟨by decide, by decide⟩

/-- C4 (amended): in sub-process mode with a gate configured, an item that
exposes no metadata has the gate skipped with `process` left true, so the
sub-flow filter IS applied to it, exactly as if the gate had passed; no
warning is logged (the only logging happens when metadata is present). -/
theorem c4_no_metadata_is_filtered (field : Option Str) (comparison : String)
    (value : Option Str) (f : Item → Item) (it : Item) (h : it.meta = none) :
    subProcessDoProcess field comparison value (some f) (.one it)
      = .ok (.one (f it)) := by
  rcases field with _ | fld
  · rfl
  · simp [subProcessDoProcess, subProcessItems, subProcessItem, h, makeList,
      flattenList]

/-- C4 witness: a concrete metadata-less item with a payload-changing
filter. -/
theorem c4_no_metadata_is_filtered_witness :
    subProcessDoProcess (some "status".toList) "==" (some "done".toList)
        (some (fun it => ⟨"changed".toList, it.meta⟩))
        (.one ⟨"raw".toList, none⟩)
      = .ok (.one ⟨"changed".toList, none⟩) :=
  c4_no_metadata_is_filtered (some "status".toList) "==" (some "done".toList)
    (fun it => ⟨"changed".toList, it.meta⟩) ⟨"raw".toList, none⟩ rfl

/-- C5 counterexample: a sub-flow with a reader followed by two
writer-capable plugins initializes successfully — the first writer
terminates the classification scan (`break`), so the second writer is
silently ignored and no composition error is raised, contradicting the
claim that a second writer occurrence raises. -/
theorem c5_second_writer_counterexample :
    triggerInit (some [Plugin.reader 0, Plugin.writer 0, Plugin.writer 1])
        none none
      = .ok ⟨some (Plugin.reader 0), none, some (Plugin.writer 0)⟩ := by
  decide

/-- C5 (amended): whenever a sub-flow contains a second reader-capable
plugin before any writer (at least two readers ahead of the first writer,
with arbitrary other plugins interleaved), initialization raises "More than
one reader defined in sub-flow!"; but the first writer-capable plugin
terminates the scan, so every plugin after it — including a second writer —
is ignored and never raises. -/
theorem c5_reader_raises_writer_ignored :
    (∀ (sf : List Plugin) (field value : Option Str),
        2 ≤ readersBeforeWriter sf →
        triggerInit (some sf) field value
          = .error "More than one reader defined in sub-flow!")
    ∧ (∀ (xs : List Plugin) (w : Nat) (rest : List Plugin)
        (field value : Option Str), (∀ p ∈ xs, p.isWriter = false) →
        triggerInit (some (xs ++ Plugin.writer w :: rest)) field value
          = triggerInit (some (xs ++ [Plugin.writer w])) field value) := by
  constructor
  · intro sf field value h
    have hcl : classify sf none []
        = .error "More than one reader defined in sub-flow!" := by
      refine classify_two_readers_error sf none [] ?_
      simpa using h
    have hl : sf.length > 0 := by
      cases sf with
      | nil => simp [readersBeforeWriter] at h
      | cons p l => simp
    simp only [triggerInit, Option.getD_some, if_pos hl, hcl]
  · intro xs w rest field value h
    have h1 : (xs ++ Plugin.writer w :: rest).length > 0 := by simp
    have h2 : (xs ++ [Plugin.writer w]).length > 0 := by simp
    simp only [triggerInit, Option.getD_some, if_pos h1, if_pos h2,
      classify_append_writer xs w rest none [] h]

/-- C5 witness: a second reader behind a filter raises, and everything
after the first writer is ignored, shown on concrete sub-flows. -/
theorem c5_reader_raises_writer_ignored_witness :
    triggerInit (some [Plugin.filt 0, Plugin.reader 0, Plugin.reader 1])
        none none
      = .error "More than one reader defined in sub-flow!"
    ∧ triggerInit (some ([Plugin.reader 0] ++ Plugin.writer 0 :: [Plugin.writer 1]))
        none none
      = triggerInit (some ([Plugin.reader 0] ++ [Plugin.writer 0])) none none :=
  ⟨c5_reader_raises_writer_ignored.1
      [Plugin.filt 0, Plugin.reader 0, Plugin.reader 1] none none (by decide),
   c5_reader_raises_writer_ignored.2 [Plugin.reader 0] 0 [Plugin.writer 1]
     none none (by decide)⟩

/-- C6 counterexample: in trigger mode with a gate that evaluates false on a
single incoming item, the filter does not return that single item: it
returns the `make_list`-wrapped one-element list (`return result` instead of
`return flatten_list(result)` on the gate-false path). -/
theorem c6_gate_false_counterexample :
    triggerDoProcess (some "status".toList) "==" (some "pending".toList)
        (.one ⟨"p1".toList, some [("status".toList, "done".toList)]⟩)
      = .ok (.many [⟨"p1".toList, some [("status".toList, "done".toList)]⟩], false)
    ∧ PyData.many [⟨"p1".toList, some [("status".toList, "done".toList)]⟩]
        ≠ PyData.one ⟨"p1".toList, some [("status".toList, "done".toList)]⟩ :=
  ⟨by decide, by decide⟩

/-- C6 (amended): the trigger passes the outer data through unchanged up to
list wrapping, independently of the gate outcome and of the inner pipeline:
whenever `_do_process` returns, the `make_list` image of its output equals
the `make_list` image of its input (on the gate-false path the output is the
wrapped list itself; when the sub-flow runs it is the `flatten_list` of that
list). -/
theorem c6_outer_data_preserved (field : Option Str) (comparison : String)
    (value : Option Str) (data : PyData) (out : PyData) (ran : Bool)
    (h : triggerDoProcess field comparison value data = .ok (out, ran)) :
    makeList out = makeList data := by
  unfold triggerDoProcess at h
  rcases hm : makeList data with _ | ⟨it, tl⟩
  · rw [hm] at h
    simp only [Except.ok.injEq, Prod.mk.injEq] at h
    rw [← h.1, ← hm, makeList_flattenList, hm]
  · rcases tl with _ | ⟨it2, tl'⟩
    · rw [hm] at h
      simp only at h
      rcases hg : triggerGate field comparison value it with e | comp
      · rw [hg] at h
        exact absurd h (by simp)
      · rw [hg] at h
        rcases comp with _ | _
        · simp only [Bool.false_eq_true, if_false, Except.ok.injEq,
            Prod.mk.injEq] at h
          rw [← h.1]
          rfl
        · simp only [if_true, Except.ok.injEq, Prod.mk.injEq] at h
          rw [← h.1, makeList_flattenList]
    · rw [hm] at h
      simp only [Except.ok.injEq, Prod.mk.injEq] at h
      rw [← h.1, makeList_flattenList]

/-- C6 witness: on the gate-false path the output is the wrapped input; its
`make_list` image equals that of the single-item input. -/
theorem c6_outer_data_preserved_witness :
    makeList (PyData.many
        [⟨"p1".toList, some [("status".toList, "done".toList)]⟩])
      = makeList (PyData.one
        ⟨"p1".toList, some [("status".toList, "done".toList)]⟩) :=
  c6_outer_data_preserved (some "status".toList) "==" (some "pending".toList)
    (.one ⟨"p1".toList, some [("status".toList, "done".toList)]⟩)
    (.many [⟨"p1".toList, some [("status".toList, "done".toList)]⟩]) false
    (by decide)

/-- C7: for the six relational operators the comparison is numeric exactly
when both operands parse as floating-point numbers, and falls back to
string comparison otherwise; in particular `compare("5", "<", "10")` is true
via the numeric path (the string path would give false, since `"5" < "10"`
fails lexicographically) and `compare("apple", "<", "banana")` is true via
the string path. -/
theorem c7_numeric_iff_both_parse (op : String) (v1 v2 : Str) :
    (op ∈ relOps → ∀ a b, parseFloat? v1 = some a → parseFloat? v2 = some b →
        compare_values v1 op v2 = numCompare op a b)
    ∧ (op ∈ relOps → (parseFloat? v1 = none ∨ parseFloat? v2 = none) →
        compare_values v1 op v2 = strCompareOp op v1 v2)
    ∧ compare_values "5".toList "<" "10".toList = .ok true
    ∧ compare_values "apple".toList "<" "banana".toList = .ok true
    ∧ strLt "5".toList "10".toList = false := by
  have hops : op ∈ relOps → op ≠ "contains" ∧ op ≠ "matches" := by
    intro h
    fin_cases h <;> exact ⟨by decide, by decide⟩
  refine ⟨?_, ?_, by decide, by decide, by decide⟩
  · intro hop a b h1 h2
    obtain ⟨hc, hm⟩ := hops hop
    simp [compare_values, hc, hm, h1, h2]
  · intro hop hnone
    obtain ⟨hc, hm⟩ := hops hop
    rcases hnone with h1 | h2
    · simp [compare_values, hc, hm, h1]
    · rcases hp1 : parseFloat? v1 with _ | a
      · simp [compare_values, hc, hm, hp1]
      · simp [compare_values, hc, hm, hp1, h2]

/-- C7 witness: the numeric path is taken on `"5" < "10"` and the string
path on `"apple" < "banana"`. -/
theorem c7_numeric_iff_both_parse_witness :
    compare_values "5".toList "<" "10".toList
      = numCompare "<" ⟨5, 0⟩ ⟨10, 0⟩
    ∧ compare_values "apple".toList "<" "banana".toList
      = strCompareOp "<" "apple".toList "banana".toList :=
  ⟨(c7_numeric_iff_both_parse "<" "5".toList "10".toList).1 (by decide)
      ⟨5, 0⟩ ⟨10, 0⟩ (by decide) (by decide),
   (c7_numeric_iff_both_parse "<" "apple".toList "banana".toList).2.1
      (by decide) (Or.inl (by decide))⟩

/-- C8: a trigger never runs without a reader: whenever the classification
of the (possibly empty or absent) sub-flow yields no reader instance,
`initialize` raises "No reader defined in sub-flow!" before any item can be
processed. -/
theorem c8_no_reader_is_error (sub_flow : Option (List Plugin))
    (field value : Option Str) (fs : List Plugin) (w : Option Plugin)
    (h : classify (sub_flow.getD []) none [] = .ok (none, fs, w)) :
    triggerInit sub_flow field value = .error "No reader defined in sub-flow!" := by
  by_cases hl : (sub_flow.getD []).length > 0
  · simp only [triggerInit, if_pos hl, h]
  · simp only [triggerInit, if_neg hl]

/-- C8 witness: an absent sub-flow and a filters-only sub-flow both raise at
initialization. -/
theorem c8_no_reader_is_error_witness :
    triggerInit none none none = .error "No reader defined in sub-flow!"
    ∧ triggerInit (some [Plugin.filt 0]) none none
        = .error "No reader defined in sub-flow!" :=
  ⟨c8_no_reader_is_error none none none [] none (by decide),
   c8_no_reader_is_error (some [Plugin.filt 0]) none none [Plugin.filt 0]
     none (by decide)⟩

end Kasperl

